import Mathlib

/-!
Verification of the broadcast Redis protocol layer (redisProtocol package)
and the stats backend (backends/stats/metrics.go), as a shallow embedding.

Byte strings are lists of byte values (Nat). The protocol session loop
RunClient is modelled as a function over the list of per-iteration inputs
(the outcome of each ReadBulkPayload call plus the behaviour of the
dispatched handler), producing the emitted operational events, the write
operations buffered to the client, and whether the connection was closed.
-/

/-- Byte strings (Go []byte) as lists of byte values. -/
abbrev ByteStr := List Nat

/-- Bytes of an ASCII string literal, for writing commands such as QUIT. -/
def strBytes (s : String) : ByteStr := s.data.map Char.toNat

/-- Error values flowing through the protocol and the backend.
quit models the errQuit sentinel, cmdNotFound models errCmdNotFound,
msg models errors.New with the given message, panicMsg models the
error built from a recovered panic value. -/
inductive Err where
  | quit
  | cmdNotFound
  | msg (s : String)
  | panicMsg (s : String)
deriving DecidableEq, Repr

/-- Buffered write operations on a protocol client (WriteInt64, WriteString,
WriteError, WriteJson, Flush). -/
inductive WriteOp where
  | int (i : Int)
  | str (s : ByteStr)
  | werr (e : Err)
  | json (m : List (String × Int))
  | flush
deriving DecidableEq, Repr

/-- Result of invoking a protocol handler on the argument list: either the
handler panics, or it returns having buffered `writes` and yielding an
optional error (none models a nil error return). -/
inductive HandlerRes where
  | panics (m : String)
  | ret (writes : List WriteOp) (res : Option Err)
deriving DecidableEq, Repr

/-- A registered command handler: from the argument byte strings to a result.
The client writer is implicit in the returned write list. -/
abbrev Handler := List ByteStr → HandlerRes

/-- Go strings.ToUpper restricted to ASCII bytes: lower-case letters map to
upper-case, all other bytes are unchanged. -/
def toUpperByte (b : Nat) : Nat := if 97 ≤ b ∧ b ≤ 122 then b - 32 else b

/-- strings.ToUpper on a byte string (ASCII model). -/
def goToUpper (s : ByteStr) : ByteStr := s.map toUpperByte

/-- The reserved QUIT command name. -/
def quitBytes : ByteStr := strBytes "QUIT"

/-- RedisProtocol.handleData: upper-case the first element as the command
name; QUIT short-circuits with errQuit before any registry lookup; otherwise
look the name up in ctx.Commands, returning errCmdNotFound when absent and
invoking the handler on the remaining elements when present. Indexing
data[0] on an empty request panics in Go, modelled by the panics case. -/
def handleData (commands : ByteStr → Option Handler) : List ByteStr → HandlerRes
  | [] => .panics "runtime error: index out of range"
  | first :: args =>
    if goToUpper first = quitBytes then .ret [] (some .quit)
    else
      match commands (goToUpper first) with
      | none => .ret [] (some .cmdNotFound)
      | some h => h args

/-- Severity of a BroadcastEvent. -/
inductive Level where
  | info
  | error
  | fatal
deriving DecidableEq, Repr

/-- server.BroadcastEvent: level, message, cause, and whether a stack-trace
context buffer was attached. -/
structure BEvent where
  level : Level
  message : String
  cause : Option Err
  hasStack : Bool
deriving DecidableEq, Repr

/-- The fatal event RunClient emits from its recover boundary: level fatal,
message "client run panic", the panic value as the cause, and the captured
runtime.Stack buffer attached. -/
def fatalEv (m : String) : BEvent :=
  ⟨.fatal, "client run panic", some (.panicMsg m), true⟩

/-- One iteration input of the RunClient loop: the outcome of
client.ReadBulkPayload. ok carries a decoded request; eof models io.EOF
(peer closed cleanly); readErr models any other read error; panicRead
models a panic raised inside the decode. -/
inductive ReadInput where
  | ok (data : List ByteStr)
  | eof
  | readErr (e : Err)
  | panicRead (m : String)
deriving DecidableEq, Repr

/-- How the RunClient loop returned. -/
inductive ExitKind where
  | eofExit
  | readErrExit
  | quitExit
  | panicExit
deriving DecidableEq, Repr

/-- Observable outcome of RunClient on a list of iteration inputs:
the operational events sent to ctx.Events in order, the write operations
buffered to the client in order, the exit kind (none when the inputs ran
out with the loop still waiting for the next frame), and whether
client.Close() ran (the deferred close runs on every return). -/
structure SessionOut where
  events : List BEvent
  writes : List WriteOp
  exit : Option ExitKind
  closed : Bool
deriving DecidableEq, Repr

/-- RedisProtocol.RunClient: the per-connection loop. Each iteration decodes
a request; io.EOF returns silently; any other read error emits one error
event and returns; a successful decode is dispatched through handleData;
errQuit writes "OK", flushes and returns; any other handler error emits one
error event, writes the error, flushes and continues the loop; a panic in
decode or dispatch is recovered by the deferred boundary, which emits one
fatal event with the captured stack. The deferred client.Close() runs on
every return path, recovered panics included. -/
def runClient (commands : ByteStr → Option Handler) : List ReadInput → SessionOut
  | [] => ⟨[], [], none, false⟩
  | .eof :: _ => ⟨[], [], some .eofExit, true⟩
  | .readErr e :: _ => ⟨[⟨.error, "read error", some e, false⟩], [], some .readErrExit, true⟩
  | .panicRead m :: _ => ⟨[fatalEv m], [], some .panicExit, true⟩
  | .ok data :: rest =>
    match handleData commands data with
    | .panics m => ⟨[fatalEv m], [], some .panicExit, true⟩
    | .ret ws none =>
      let o := runClient commands rest
      ⟨o.events, ws ++ o.writes, o.exit, o.closed⟩
    | .ret ws (some e) =>
      if e = .quit then
        ⟨[], ws ++ [.str (strBytes "OK"), .flush], some .quitExit, true⟩
      else
        let o := runClient commands rest
        ⟨⟨.error, "accept error", some e, false⟩ :: o.events,
         ws ++ [.werr e, .flush] ++ o.writes, o.exit, o.closed⟩

theorem toUpperByte_idem (b : Nat) : toUpperByte (toUpperByte b) = toUpperByte b := by
  unfold toUpperByte
  split
  · split <;> omega
  · rfl

theorem goToUpper_idem (s : ByteStr) : goToUpper (goToUpper s) = goToUpper s := by
  induction s with
  | nil => rfl
  | cons b t ih =>
    simp only [goToUpper, List.map_cons] at ih ⊢
    rw [toUpperByte_idem]
    exact congrArg _ (by simpa [goToUpper] using ih)

/-- C2: for every decoded request whose handling fails other than with QUIT
(command absent from the registry, or the handler returning a non-nil
error), the session emits exactly one operational error event, writes an
error reply built from that error, flushes it, and remains Running: the
loop continues on the remaining inputs exactly as it would have. -/
theorem runClient_dispatch_failure (commands : ByteStr → Option Handler)
    (data : List ByteStr) (rest : List ReadInput) (ws : List WriteOp) (e : Err)
    (hres : handleData commands data = .ret ws (some e)) (hq : e ≠ .quit) :
    runClient commands (.ok data :: rest) =
      ⟨⟨.error, "accept error", some e, false⟩ :: (runClient commands rest).events,
       ws ++ [.werr e, .flush] ++ (runClient commands rest).writes,
       (runClient commands rest).exit, (runClient commands rest).closed⟩ := by
  simp [runClient, hres, hq]

/-- C2 witness: an unregistered command FOO yields one accept-error event,
an error reply and a flush, and the session keeps processing: the next
request (QUIT) is still served. -/
theorem runClient_dispatch_failure_witness :
    runClient (fun _ => none) [.ok [strBytes "FOO"], .ok [strBytes "QUIT"]] =
      ⟨[⟨.error, "accept error", some .cmdNotFound, false⟩],
       [.werr .cmdNotFound, .flush, .str (strBytes "OK"), .flush],
       some .quitExit, true⟩ := by
  rw [runClient_dispatch_failure (fun _ => none) [strBytes "FOO"]
    [.ok [strBytes "QUIT"]] [] .cmdNotFound (by decide) (by decide)]
  decide

/-- C3: a decoded request whose first element upper-cases to QUIT, whatever
its extra arguments, makes the session write the simple string OK, flush,
and close; the result does not depend on the registry (no lookup) nor on
any later inputs (no further reads), and the path always succeeds. -/
theorem runClient_quit (commands : ByteStr → Option Handler)
    (first : ByteStr) (args : List ByteStr) (rest : List ReadInput)
    (h : goToUpper first = quitBytes) :
    runClient commands (.ok (first :: args) :: rest) =
      ⟨[], [.str (strBytes "OK"), .flush], some .quitExit, true⟩ := by
  simp [runClient, handleData, h]

/-- C3 witness: a lower-case quit with an extra argument, a nonempty
registry and further pending input still yields exactly OK-flush-close. -/
theorem runClient_quit_witness :
    runClient (fun _ => some (fun _ => .ret [] none))
        [.ok [strBytes "quit", strBytes "now"], .eof] =
      ⟨[], [.str (strBytes "OK"), .flush], some .quitExit, true⟩ :=
  runClient_quit _ (strBytes "quit") [strBytes "now"] [.eof] (by decide)

/-- C4: a read returning end-of-stream closes the connection with no event
emitted and nothing written; any other read error emits exactly one
operational error event, writes nothing, and closes the connection, in both
cases ignoring all later inputs (no resynchronization attempt). -/
theorem runClient_read_errors :
    (∀ (commands : ByteStr → Option Handler) (rest : List ReadInput),
      runClient commands (.eof :: rest) = ⟨[], [], some .eofExit, true⟩) ∧
    (∀ (commands : ByteStr → Option Handler) (e : Err) (rest : List ReadInput),
      runClient commands (.readErr e :: rest) =
        ⟨[⟨.error, "read error", some e, false⟩], [], some .readErrExit, true⟩) :=
  ⟨fun _ _ => rfl, fun _ _ _ => rfl⟩

/-- C5: a panic during decode or during dispatch is recovered at the
session boundary: it never propagates (runClient still yields an outcome),
it becomes exactly one fatal event carrying the captured stack, and the
connection is closed; moreover the deferred close runs exactly on the exit
paths: the connection is closed precisely when the loop returned. -/
theorem runClient_panic_boundary :
    (∀ (commands : ByteStr → Option Handler) (m : String) (rest : List ReadInput),
      runClient commands (.panicRead m :: rest) =
        ⟨[fatalEv m], [], some .panicExit, true⟩) ∧
    (∀ (commands : ByteStr → Option Handler) (data : List ByteStr)
        (rest : List ReadInput) (m : String),
      handleData commands data = .panics m →
      runClient commands (.ok data :: rest) =
        ⟨[fatalEv m], [], some .panicExit, true⟩) ∧
    (∀ (commands : ByteStr → Option Handler) (inputs : List ReadInput),
      (runClient commands inputs).closed = (runClient commands inputs).exit.isSome) := by
  refine ⟨fun _ _ _ => rfl, fun commands data rest m h => by simp [runClient, h], ?_⟩
  intro commands inputs
  induction inputs with
  | nil => rfl
  | cons i rest ih =>
    cases i with
    | ok data =>
      cases h : handleData commands data with
      | panics m => simp [runClient, h]
      | ret ws res =>
        cases res with
        | none => simp [runClient, h, ih]
        | some e =>
          by_cases he : e = .quit
          · simp [runClient, h, he]
          · simp [runClient, h, he, ih]
    | eof => rfl
    | readErr e => rfl
    | panicRead m => rfl

/-- C5 witness: dispatching an empty request panics on data[0]; the
boundary converts it into one fatal event with a stack and closes. -/
theorem runClient_panic_boundary_witness :
    runClient (fun _ => none) [.ok []] =
      ⟨[fatalEv "runtime error: index out of range"], [], some .panicExit, true⟩ :=
  runClient_panic_boundary.2.1 (fun _ => none) [] [] _ rfl

theorem handleData_upper_first (commands : ByteStr → Option Handler)
    (first : ByteStr) (args : List ByteStr) :
    handleData commands (goToUpper first :: args) = handleData commands (first :: args) := by
  simp [handleData, goToUpper_idem]

/-- C9: command-name lookup is case-insensitive: for every request with at
least one element, dispatching it through handleData, and running the whole
session loop on it, coincide with doing the same after replacing the first
element by its upper-cased form. -/
theorem handleData_case_insensitive :
    (∀ (commands : ByteStr → Option Handler) (first : ByteStr) (args : List ByteStr),
      handleData commands (goToUpper first :: args) = handleData commands (first :: args)) ∧
    (∀ (commands : ByteStr → Option Handler) (first : ByteStr) (args : List ByteStr)
        (rest : List ReadInput),
      runClient commands (.ok (goToUpper first :: args) :: rest) =
        runClient commands (.ok (first :: args) :: rest)) :=
  ⟨handleData_upper_first, fun commands first args rest => by
    simp only [runClient, handleData_upper_first]⟩

/-!
The stats backend (backends/stats/metrics.go). Its handlers receive the
request arguments as dynamically typed values (Go interface values): a key
is asserted to string and a numeric argument to int64; a failed assertion
panics. The Metrics store implementation behind the handlers
(NewMemoryBackend) is not part of the shown sources, so its operations are
modelled from the spec.
-/

/-- A dynamically typed handler argument: a string or an int64. -/
inductive Arg where
  | s (v : String)
  | i (v : Int)
deriving DecidableEq, Repr

/-- Pointwise update of a string-keyed map. -/
def updateFn (f : String → Option Int) (k : String) (v : Int) : String → Option Int :=
  fun q => if q = k then some v else f q

/-- Removal from a string-keyed map. -/
def removeFn (f : String → Option Int) (k : String) : String → Option Int :=
  fun q => if q = k then none else f q

/-- Modelled from the spec: the in-memory Metrics implementation
(NewMemoryBackend) is missing from the shown sources; per the spec it keeps
two independent spaces per key, a persistent value store and an
interval-scoped counters map. -/
structure MemoryBackend where
  values : String → Option Int
  counters : String → Option Int

/-- Modelled from the spec: Set(key, value) is an unconditional write that
returns the new value. -/
def MemoryBackend.set (m : MemoryBackend) (k : String) (v : Int) :
    Int × Option Err × MemoryBackend :=
  (v, none, { m with values := updateFn m.values k v })

/-- Modelled from the spec: SetNx writes only if the key is absent and
returns 1 if written, 0 if the key already existed. -/
def MemoryBackend.setNx (m : MemoryBackend) (k : String) (v : Int) :
    Int × Option Err × MemoryBackend :=
  match m.values k with
  | some _ => (0, none, m)
  | none => (1, none, { m with values := updateFn m.values k v })

/-- Modelled from the spec: Get returns the current value or a not-found
condition, distinguishable from a stored 0. -/
def MemoryBackend.get (m : MemoryBackend) (k : String) :
    Int × Option Err × MemoryBackend :=
  match m.values k with
  | some v => (v, none, m)
  | none => (0, some (.msg "key not found"), m)

/-- Modelled from the spec: Exists returns presence as 1 or 0. -/
def MemoryBackend.existsKey (m : MemoryBackend) (k : String) :
    Int × Option Err × MemoryBackend :=
  match m.values k with
  | some _ => (1, none, m)
  | none => (0, none, m)

/-- Modelled from the spec: Del removes the key from the value store and
returns the count removed. -/
def MemoryBackend.del (m : MemoryBackend) (k : String) :
    Int × Option Err × MemoryBackend :=
  match m.values k with
  | some _ => (1, none, { m with values := removeFn m.values k })
  | none => (0, none, m)

/-- Modelled from the spec: IncrBy is a fetch-add on the value store
returning the resulting value. -/
def MemoryBackend.incrBy (m : MemoryBackend) (k : String) (d : Int) :
    Int × Option Err × MemoryBackend :=
  ((m.values k).getD 0 + d, none,
   { m with values := updateFn m.values k ((m.values k).getD 0 + d) })

/-- Modelled from the spec: Incr is IncrBy with the default delta 1. -/
def MemoryBackend.incr (m : MemoryBackend) (k : String) :
    Int × Option Err × MemoryBackend :=
  m.incrBy k 1

/-- Modelled from the spec: DecrBy is a fetch-subtract on the value store
returning the resulting value. -/
def MemoryBackend.decrBy (m : MemoryBackend) (k : String) (d : Int) :
    Int × Option Err × MemoryBackend :=
  ((m.values k).getD 0 - d, none,
   { m with values := updateFn m.values k ((m.values k).getD 0 - d) })

/-- Modelled from the spec: Decr is DecrBy with the default delta 1. -/
def MemoryBackend.decr (m : MemoryBackend) (k : String) :
    Int × Option Err × MemoryBackend :=
  m.decrBy k 1

/-- Modelled from the spec: CounterBy is the fetch-add discipline applied to
the separate counters space, returning the value after the update. -/
def MemoryBackend.counterBy (m : MemoryBackend) (k : String) (d : Int) :
    Int × Option Err × MemoryBackend :=
  ((m.counters k).getD 0 + d, none,
   { m with counters := updateFn m.counters k ((m.counters k).getD 0 + d) })

/-- Modelled from the spec: Counter is CounterBy with the default delta 1. -/
def MemoryBackend.counter (m : MemoryBackend) (k : String) :
    Int × Option Err × MemoryBackend :=
  m.counterBy k 1

/-- Result of a stats handler invocation. -/
inductive HRes where
  | ok
  | err (e : Err)
  | panics (m : String)
deriving DecidableEq, Repr

/-- Outcome of a stats handler: the store after the call, the writes
buffered to the client, and the returned error status. -/
structure BackendOut where
  mem : MemoryBackend
  writes : List WriteOp
  res : HRes

/-- StatsBackend.FlushInt: forwards a store error unchanged; otherwise
writes the integer result and flushes, returning nil. -/
def StatsBackend.FlushInt (i : Int) (e : Option Err) : List WriteOp × HRes :=
  match e with
  | some e => ([], .err e)
  | none => ([.int i, .flush], .ok)

/-- StatsBackend.Set: fewer than 2 arguments writes the arity error and
flushes, returning nil; otherwise asserts key to string and value to int64
(a failed assertion panics) and stores through the Metrics Set. -/
def StatsBackend.Set (d : List Arg) (mem : MemoryBackend) : BackendOut :=
  match d with
  | .s key :: .i value :: _ =>
    let (i, e, mem2) := mem.set key value
    let (ws, r) := StatsBackend.FlushInt i e
    ⟨mem2, ws, r⟩
  | _ :: _ :: _ => ⟨mem, [], .panics "interface conversion"⟩
  | _ =>
    ⟨mem, [.werr (.msg "SET takes at least 2 parameters (i.e. key to set and value to set to)"),
      .flush], .ok⟩

/-- StatsBackend.SetNx: as Set, through the Metrics SetNx. -/
def StatsBackend.SetNx (d : List Arg) (mem : MemoryBackend) : BackendOut :=
  match d with
  | .s key :: .i value :: _ =>
    let (i, e, mem2) := mem.setNx key value
    let (ws, r) := StatsBackend.FlushInt i e
    ⟨mem2, ws, r⟩
  | _ :: _ :: _ => ⟨mem, [], .panics "interface conversion"⟩
  | _ =>
    ⟨mem,
      [.werr (.msg
        "SETNX takes at least 2 parameters (i.e. key to set and value to set to, if not already set)"),
      .flush], .ok⟩

/-- StatsBackend.Get: zero arguments writes the arity error; otherwise
asserts the key to string and reads through the Metrics Get. -/
def StatsBackend.Get (d : List Arg) (mem : MemoryBackend) : BackendOut :=
  match d with
  | [] => ⟨mem, [.werr (.msg "GET takes at least 1 parameter (i.e. key to get)"), .flush], .ok⟩
  | .s key :: _ =>
    let (i, e, mem2) := mem.get key
    let (ws, r) := StatsBackend.FlushInt i e
    ⟨mem2, ws, r⟩
  | _ :: _ => ⟨mem, [], .panics "interface conversion"⟩

/-- StatsBackend.Exists: zero arguments writes the arity error; otherwise
reads presence through the Metrics Exists. -/
def StatsBackend.Exists (d : List Arg) (mem : MemoryBackend) : BackendOut :=
  match d with
  | [] => ⟨mem, [.werr (.msg "EXISTS takes at least 1 parameter (i.e. key to find)"), .flush], .ok⟩
  | .s key :: _ =>
    let (i, e, mem2) := mem.existsKey key
    let (ws, r) := StatsBackend.FlushInt i e
    ⟨mem2, ws, r⟩
  | _ :: _ => ⟨mem, [], .panics "interface conversion"⟩

/-- StatsBackend.Del: zero arguments writes the arity error; otherwise
removes through the Metrics Del. -/
def StatsBackend.Del (d : List Arg) (mem : MemoryBackend) : BackendOut :=
  match d with
  | [] => ⟨mem, [.werr (.msg "DEL takes at least 1 parameter (i.e. key to delete)"), .flush], .ok⟩
  | .s key :: _ =>
    let (i, e, mem2) := mem.del key
    let (ws, r) := StatsBackend.FlushInt i e
    ⟨mem2, ws, r⟩
  | _ :: _ => ⟨mem, [], .panics "interface conversion"⟩

/-- StatsBackend.Incr: zero arguments writes the arity error; with a key
only it calls the Metrics Incr (default delta 1); with an explicit delta it
asserts it to int64 and calls IncrBy. -/
def StatsBackend.Incr (d : List Arg) (mem : MemoryBackend) : BackendOut :=
  match d with
  | [] =>
    ⟨mem, [.werr (.msg "INCR takes at least 1 parameter (i.e. key to increment)"), .flush], .ok⟩
  | .s key :: .i value :: _ =>
    let (i, e, mem2) := mem.incrBy key value
    let (ws, r) := StatsBackend.FlushInt i e
    ⟨mem2, ws, r⟩
  | [.s key] =>
    let (i, e, mem2) := mem.incr key
    let (ws, r) := StatsBackend.FlushInt i e
    ⟨mem2, ws, r⟩
  | _ => ⟨mem, [], .panics "interface conversion"⟩

/-- StatsBackend.Decr: as Incr, through the Metrics Decr and DecrBy. -/
def StatsBackend.Decr (d : List Arg) (mem : MemoryBackend) : BackendOut :=
  match d with
  | [] =>
    ⟨mem, [.werr (.msg "DECR takes at least 1 parameter (i.e. key to increment)"), .flush], .ok⟩
  | .s key :: .i value :: _ =>
    let (i, e, mem2) := mem.decrBy key value
    let (ws, r) := StatsBackend.FlushInt i e
    ⟨mem2, ws, r⟩
  | [.s key] =>
    let (i, e, mem2) := mem.decr key
    let (ws, r) := StatsBackend.FlushInt i e
    ⟨mem2, ws, r⟩
  | _ => ⟨mem, [], .panics "interface conversion"⟩

/-- StatsBackend.Count: as Incr, on the counters space through the Metrics
Counter and CounterBy. -/
def StatsBackend.Count (d : List Arg) (mem : MemoryBackend) : BackendOut :=
  match d with
  | [] =>
    ⟨mem, [.werr (.msg "COUNTER takes at least 1 parameter (i.e. key to increment)"), .flush], .ok⟩
  | .s key :: .i value :: _ =>
    let (i, e, mem2) := mem.counterBy key value
    let (ws, r) := StatsBackend.FlushInt i e
    ⟨mem2, ws, r⟩
  | [.s key] =>
    let (i, e, mem2) := mem.counter key
    let (ws, r) := StatsBackend.FlushInt i e
    ⟨mem2, ws, r⟩
  | _ => ⟨mem, [], .panics "interface conversion"⟩

/-- C1: a SET request carrying at least a key and a value stores the value
unconditionally under the key and writes the new value back as an integer
reply followed by a flush, returning nil to the session loop. -/
theorem set_handler_spec :
    ∀ (key : String) (v : Int) (rest : List Arg) (mem : MemoryBackend),
      StatsBackend.Set (.s key :: .i v :: rest) mem =
        ⟨{ mem with values := updateFn mem.values key v }, [.int v, .flush], .ok⟩ ∧
      (StatsBackend.Set (.s key :: .i v :: rest) mem).mem.values key = some v :=
  fun key v rest mem =>
    ⟨rfl, by
      simp [StatsBackend.Set, MemoryBackend.set, StatsBackend.FlushInt, updateFn]⟩

/-- C7: INCR with only a key fetch-adds the default delta 1 to the stored
value (absent keys read as 0); with an explicit delta it fetch-adds that
delta; DECR does the same with subtraction; in every case the resulting
value is written back as an integer reply and flushed, returning nil. -/
theorem incr_decr_spec :
    (∀ (key : String) (mem : MemoryBackend),
      StatsBackend.Incr [.s key] mem =
        ⟨{ mem with values := updateFn mem.values key ((mem.values key).getD 0 + 1) },
         [.int ((mem.values key).getD 0 + 1), .flush], .ok⟩) ∧
    (∀ (key : String) (d : Int) (rest : List Arg) (mem : MemoryBackend),
      StatsBackend.Incr (.s key :: .i d :: rest) mem =
        ⟨{ mem with values := updateFn mem.values key ((mem.values key).getD 0 + d) },
         [.int ((mem.values key).getD 0 + d), .flush], .ok⟩) ∧
    (∀ (key : String) (mem : MemoryBackend),
      StatsBackend.Decr [.s key] mem =
        ⟨{ mem with values := updateFn mem.values key ((mem.values key).getD 0 - 1) },
         [.int ((mem.values key).getD 0 - 1), .flush], .ok⟩) ∧
    (∀ (key : String) (d : Int) (rest : List Arg) (mem : MemoryBackend),
      StatsBackend.Decr (.s key :: .i d :: rest) mem =
        ⟨{ mem with values := updateFn mem.values key ((mem.values key).getD 0 - d) },
         [.int ((mem.values key).getD 0 - d), .flush], .ok⟩) :=
  ⟨fun _ _ => rfl, fun _ _ _ _ => rfl, fun _ _ => rfl, fun _ _ _ _ => rfl⟩

/-- C6: every registered command invoked with fewer arguments than its
minimum arity writes an error reply describing that arity, flushes it, and
returns nil while leaving the store untouched; and a handler returning nil
makes the session loop continue with no operational event emitted. -/
theorem arity_error_replies :
    (∀ mem, StatsBackend.Set [] mem =
      ⟨mem, [.werr (.msg "SET takes at least 2 parameters (i.e. key to set and value to set to)"),
        .flush], .ok⟩) ∧
    (∀ a mem, StatsBackend.Set [a] mem =
      ⟨mem, [.werr (.msg "SET takes at least 2 parameters (i.e. key to set and value to set to)"),
        .flush], .ok⟩) ∧
    (∀ mem, StatsBackend.SetNx [] mem =
      ⟨mem,
        [.werr (.msg
          "SETNX takes at least 2 parameters (i.e. key to set and value to set to, if not already set)"),
        .flush], .ok⟩) ∧
    (∀ a mem, StatsBackend.SetNx [a] mem =
      ⟨mem,
        [.werr (.msg
          "SETNX takes at least 2 parameters (i.e. key to set and value to set to, if not already set)"),
        .flush], .ok⟩) ∧
    (∀ mem, StatsBackend.Get [] mem =
      ⟨mem, [.werr (.msg "GET takes at least 1 parameter (i.e. key to get)"), .flush], .ok⟩) ∧
    (∀ mem, StatsBackend.Exists [] mem =
      ⟨mem, [.werr (.msg "EXISTS takes at least 1 parameter (i.e. key to find)"), .flush], .ok⟩) ∧
    (∀ mem, StatsBackend.Del [] mem =
      ⟨mem, [.werr (.msg "DEL takes at least 1 parameter (i.e. key to delete)"), .flush], .ok⟩) ∧
    (∀ mem, StatsBackend.Incr [] mem =
      ⟨mem, [.werr (.msg "INCR takes at least 1 parameter (i.e. key to increment)"), .flush],
        .ok⟩) ∧
    (∀ mem, StatsBackend.Decr [] mem =
      ⟨mem, [.werr (.msg "DECR takes at least 1 parameter (i.e. key to increment)"), .flush],
        .ok⟩) ∧
    (∀ mem, StatsBackend.Count [] mem =
      ⟨mem, [.werr (.msg "COUNTER takes at least 1 parameter (i.e. key to increment)"), .flush],
        .ok⟩) ∧
    (∀ (commands : ByteStr → Option Handler) (data : List ByteStr)
        (rest : List ReadInput) (ws : List WriteOp),
      handleData commands data = .ret ws none →
      runClient commands (.ok data :: rest) =
        ⟨(runClient commands rest).events, ws ++ (runClient commands rest).writes,
         (runClient commands rest).exit, (runClient commands rest).closed⟩) := by
  refine ⟨fun _ => rfl, fun a mem => by cases a <;> rfl, fun _ => rfl,
    fun a mem => by cases a <;> rfl, fun _ => rfl, fun _ => rfl, fun _ => rfl,
    fun _ => rfl, fun _ => rfl, fun _ => rfl, ?_⟩
  intro commands data rest ws h
  simp [runClient, h]

/-- C6 witness: a handler that returns nil after writing makes the loop
continue silently: no event, the writes pass through, the session is still
running. -/
theorem arity_error_replies_witness :
    runClient (fun _ => some (fun _ => HandlerRes.ret [WriteOp.flush] none))
        [.ok [strBytes "SET"]] =
      ⟨[], [WriteOp.flush], none, false⟩ := by
  rw [arity_error_replies.2.2.2.2.2.2.2.2.2.2
    (fun _ => some (fun _ => HandlerRes.ret [WriteOp.flush] none))
    [strBytes "SET"] [] [WriteOp.flush] (by decide)]
  rfl

/-!
The background flush task started by StatsBackend.Load: a goroutine looping
on a select over the ticker channel (invoking FlushCounters) and the quit
channel (stopping the ticker and returning). The task is modelled as a
function over the schedule of select resolutions. Go select semantics: when
several cases can proceed, one is chosen pseudo-randomly; in particular,
once the quit channel is closed the quit case is always ready, but a
pending tick may still be chosen at the same select.
-/

/-- One resolution of the select in the Load goroutine: a tick received
from the ticker channel, or the quit channel observed. -/
inductive SelectChoice where
  | tick
  | quitSig
deriving DecidableEq, Repr

/-- Observable behaviour of the Load goroutine on a schedule: how many
times FlushCounters ran, whether timer.Stop ran, and whether the goroutine
returned. -/
structure FlushTaskOut where
  flushes : Nat
  tickerStopped : Bool
  terminated : Bool
deriving DecidableEq, Repr

/-- The select loop of the goroutine started by StatsBackend.Load: a tick
invokes FlushCounters and loops; observing quit stops the ticker and
returns, never looking at the rest of the schedule. -/
def flushLoop : List SelectChoice → FlushTaskOut
  | [] => ⟨0, false, false⟩
  | .tick :: rest =>
    let o := flushLoop rest
    ⟨o.flushes + 1, o.tickerStopped, o.terminated⟩
  | .quitSig :: _ => ⟨0, true, true⟩

/-- Go select validity of a schedule relative to the step index k at which
close(quit) returned (so Unload has returned before step k): the quit case
cannot be chosen before the channel is closed, so the first k choices must
be ticks; from step k on both cases may be ready and either choice is
possible. -/
def validSchedule : Nat → List SelectChoice → Bool
  | _, [] => true
  | 0, _ => true
  | Nat.succ k, c :: rest => c == .tick && validSchedule k rest

/-- C8 counterexample: the claim that FlushCounters never runs again after
Unload returns is false: with the quit channel already closed before the
next select (k = 0), the schedule that delivers a pending tick first is
valid under Go select semantics, yet it invokes FlushCounters once more
before the task observes quit and terminates. -/
theorem flush_after_unload_refuted :
    ¬ (∀ cs : List SelectChoice, validSchedule 0 cs = true → (flushLoop cs).flushes = 0) :=
  fun h => absurd (h [.tick, .quitSig] (by decide)) (by decide)

/-- C8 (amended): once the background task observes the cancellation signal
(takes the quit branch of its own select), it stops the ticker and
terminates, and FlushCounters is never invoked from that point on: on any
schedule whose first quit observation follows `pre`, the flush count is
exactly the ticks of `pre`, whatever comes after. -/
theorem flushLoop_stops_at_quit (pre post : List SelectChoice)
    (h : SelectChoice.quitSig ∉ pre) :
    flushLoop (pre ++ SelectChoice.quitSig :: post) = ⟨pre.length, true, true⟩ := by
  induction pre with
  | nil => rfl
  | cons c rest ih =>
    cases c with
    | tick =>
      have hr : SelectChoice.quitSig ∉ rest := fun hm => h (List.mem_cons_of_mem _ hm)
      simp [flushLoop, ih hr]
    | quitSig => exact absurd (List.mem_cons_self _ _) h

/-- C8 witness: one tick before the quit observation, two pending ticks
after it: exactly one flush, ticker stopped, task terminated. -/
theorem flushLoop_stops_at_quit_witness :
    flushLoop ([SelectChoice.tick] ++ SelectChoice.quitSig ::
        [SelectChoice.tick, SelectChoice.tick]) =
      ⟨1, true, true⟩ :=
  flushLoop_stops_at_quit [SelectChoice.tick] [SelectChoice.tick, SelectChoice.tick] (by decide)

/-!
StatsBackend.Load and Unload as a lifecycle over the quit channel field.
Go channel semantics: the zero value of a channel field is nil; close on a
nil channel and close on an already-closed channel both panic; only close
on an open channel succeeds.
-/

/-- State of the Go channel held in the quit field: nil (zero value before
Load), open (after make), or closed (after close). -/
inductive ChanState where
  | nilChan
  | openChan
  | closedChan
deriving DecidableEq, Repr

/-- Go close(ch): succeeds only on an open channel; closing a nil or an
already-closed channel panics (none). -/
def closeChan : ChanState → Option ChanState
  | .openChan => some .closedChan
  | _ => none

/-- The lifecycle-relevant state of a StatsBackend: its quit channel. -/
structure StatsLifecycle where
  quit : ChanState
deriving DecidableEq, Repr

/-- new(StatsBackend): the quit field holds the zero value, a nil channel. -/
def newStatsBackend : StatsLifecycle := ⟨.nilChan⟩

/-- StatsBackend.Load: quit becomes a fresh open channel (make). -/
def StatsBackend.Load (_s : StatsLifecycle) : StatsLifecycle := ⟨.openChan⟩

/-- StatsBackend.Unload: close(stats.quit); none models the panic. -/
def StatsBackend.Unload (s : StatsLifecycle) : Option StatsLifecycle :=
  (closeChan s.quit).map fun c => ⟨c⟩

/-- C10: Unload panics when called before any Load (nil channel) and when
called a second time (closed channel); it succeeds exactly when the quit
channel is open, which is the state after a Load not yet followed by an
Unload. -/
theorem unload_lifecycle :
    StatsBackend.Unload newStatsBackend = none ∧
    (∀ s, StatsBackend.Unload (StatsBackend.Load s) = some ⟨.closedChan⟩) ∧
    (∀ s t, StatsBackend.Unload s = some t → StatsBackend.Unload t = none) ∧
    (∀ s, (StatsBackend.Unload s).isSome ↔ s.quit = .openChan) := by
  refine ⟨rfl, fun _ => rfl, ?_, ?_⟩
  · intro s t h
    cases s with
    | mk q =>
      cases q with
      | nilChan => exact absurd h (by simp [StatsBackend.Unload, closeChan])
      | openChan =>
        have h2 : (⟨.closedChan⟩ : StatsLifecycle) = t := Option.some.inj h
        rw [← h2]
        rfl
      | closedChan => exact absurd h (by simp [StatsBackend.Unload, closeChan])
  · intro s
    cases s with
    | mk q => cases q <;> simp [StatsBackend.Unload, closeChan]

/-- C10 witness: after a Load, Unload succeeds and leaves the channel
closed, and a second Unload panics. -/
theorem unload_lifecycle_witness :
    StatsBackend.Unload (⟨.closedChan⟩ : StatsLifecycle) = none :=
  unload_lifecycle.2.2.1 (⟨.openChan⟩ : StatsLifecycle) ⟨.closedChan⟩ rfl
